import Mathlib

/-!
Verification of the MCP tool server (registry/dispatcher, task manager,
file analysis, work-log tools): a shallow embedding of the Python sources
under `mcp_server/tools/`, with theorems checking the specification.

Conventions of the embedding:
* `arguments.get(key)` on the string-typed argument map becomes an
  `Option String` field (`none` = key absent).
* Python truthiness of such a value (`if not x`) is `truthy`.
* The SQLite `tasks` table is a list of rows plus the next
  AUTOINCREMENT id; `CURRENT_TIMESTAMP` is an explicit `now : String`
  input per operation (SQLite stores it as `YYYY-MM-DD HH:MM:SS` text,
  compared lexicographically by `ORDER BY`).
* File contents are `List Char` after text-mode newline translation.
-/

set_option maxHeartbeats 1000000

namespace Spec2Proof

/-- A text content block (`TextContent(type="text", text=...)`), the only
content kind the tools produce. -/
structure TextContent where
  ctype : String
  text : String
deriving Repr, DecidableEq

/-- Build the standard text block, as every `TextContent(type="text", ...)`
construction in the tools does. -/
def textBlock (s : String) : TextContent := ⟨"text", s⟩

/-- The argument map passed to a tool's `execute`.  Each field models
`arguments.get(key)` for the keys the tools read; `none` when absent. -/
structure Arguments where
  file : Option String := none
  options : Option String := none
  description : Option String := none
  option : Option String := none
  taskName : Option String := none
  completionStatus : Option String := none
deriving Repr, DecidableEq

/-- Python truthiness of a string-valued argument: `None` and `""` are
falsy, every other string (whitespace included) is truthy. -/
def truthy : Option String → Bool
  | none => false
  | some s => s != ""

/-- A persisted row of the `tasks` table created by
`TaskManagerTool._init_database`. -/
structure Task where
  id : Nat
  name : String
  descr : Option String
  status : String
  created_at : String
  updated_at : String
deriving Repr, DecidableEq

/-- The task store: rows in insertion order plus the next AUTOINCREMENT
primary key. -/
structure TaskStore where
  rows : List Task
  nextId : Nat
deriving Repr, DecidableEq

/-- The store right after `_init_database` on a fresh database file. -/
def TaskStore.empty : TaskStore := ⟨[], 1⟩

/-- The two values admitted by the CHECK constraint
`status IN ('complete', 'not complete')`. -/
def validStatus (s : String) : Bool := s == "complete" || s == "not complete"

/-- The `str(e)` text of the `sqlite3.IntegrityError` raised when an
UPDATE writes a status outside the CHECK constraint. -/
def checkConstraintMsg : String := "CHECK constraint failed: status IN ('complete', 'not complete')"

/-- `TaskManagerTool._add_task`: presence-check `taskName` and
`description`, INSERT with status `'not complete'`; a UNIQUE violation
on `name` raises `sqlite3.IntegrityError`, caught and reported as the
duplicate-task error, leaving the store unchanged. -/
def addTask (args : Arguments) (now : String) (st : TaskStore) :
    List TextContent × TaskStore :=
  if !(truthy args.taskName && truthy args.description) then
    ([textBlock "Error: taskName and description are required for addTask"], st)
  else
    let name := args.taskName.getD ""
    if st.rows.any (fun t => t.name == name) then
      ([textBlock ("Error: Task '" ++ name ++ "' already exists")], st)
    else
      ([textBlock ("Task '" ++ name ++ "' added successfully")],
       ⟨st.rows ++ [⟨st.nextId, name, args.description, "not complete", now, now⟩], st.nextId + 1⟩)

/-- Check that a stored timestamp has the SQLite `CURRENT_TIMESTAMP`
shape `YYYY-MM-DD HH:MM:SS` (the shape `datetime.fromisoformat` parses
in `_list_tasks`). -/
def sqliteTsShape (s : String) : Bool :=
  match s.toList with
  | [y1, y2, y3, y4, h1, m1, m2, h2, d1, d2, sp, hh1, hh2, c1, mi1, mi2, c2, s1, s2] =>
    y1.isDigit && y2.isDigit && y3.isDigit && y4.isDigit && h1 == '-' &&
    m1.isDigit && m2.isDigit && h2 == '-' && d1.isDigit && d2.isDigit &&
    sp == ' ' && hh1.isDigit && hh2.isDigit && c1 == ':' &&
    mi1.isDigit && mi2.isDigit && c2 == ':' && s1.isDigit && s2.isDigit
  | _ => false

/-- The `_list_tasks` creation-date display: `datetime.fromisoformat`
then `strftime("%Y-%m-%d %H:%M")` keeps the first 16 characters of a
SQLite timestamp; on a parse failure the raw string is shown. -/
def formatCreatedDate (s : String) : String :=
  if sqliteTsShape s then String.mk (s.toList.take 16) else s

/-- One formatted record of `_list_tasks`: status glyph, name,
description (with the `'No description'` placeholder for a falsy value),
status text, formatted creation date and id. -/
def formatTaskRecord (t : Task) : String :=
  (if t.status == "complete" then "✅" else "⏳") ++ " **" ++ t.name ++ "**\n" ++
  "   Description: " ++ (if truthy t.descr then t.descr.getD "" else "No description") ++ "\n" ++
  "   Status: " ++ t.status ++ "\n" ++
  "   Created: " ++ formatCreatedDate t.created_at ++ "\n" ++
  "   ID: " ++ toString t.id ++ "\n"

/-- Insert a row into a list already ordered by `created_at` descending,
keeping the order: one step of the model of `ORDER BY created_at DESC`. -/
def insertByCreatedDesc (t : Task) : List Task → List Task
  | [] => [t]
  | u :: us =>
    if u.created_at ≤ t.created_at then t :: u :: us
    else u :: insertByCreatedDesc t us

/-- The rows returned by `SELECT * FROM tasks ORDER BY created_at DESC`. -/
def sortByCreatedDesc (l : List Task) : List Task :=
  l.foldr insertByCreatedDesc []

/-- `TaskManagerTool._list_tasks`: fetch all rows ordered by creation
time descending; the empty store reports the fixed message, otherwise
one block joins the formatted records with newlines. -/
def listTasks (st : TaskStore) : List TextContent × TaskStore :=
  let tasks := sortByCreatedDesc st.rows
  if tasks.isEmpty then ([textBlock "No tasks found"], st)
  else ([textBlock (String.intercalate "\n" (tasks.map formatTaskRecord))], st)

/-- `TaskManagerTool._complete_task`: presence-check `taskName` and
`completionStatus`, SELECT the row to read the old status, then UPDATE
status and `updated_at`; an UPDATE violating the status CHECK constraint
raises, is caught by the generic handler, and the transaction is rolled
back, leaving the store unchanged. -/
def completeTask (args : Arguments) (now : String) (st : TaskStore) :
    List TextContent × TaskStore :=
  if !(truthy args.taskName && truthy args.completionStatus) then
    ([textBlock "Error: taskName and completionStatus are required for completeTask"], st)
  else
    let name := args.taskName.getD ""
    let newStatus := args.completionStatus.getD ""
    match st.rows.find? (fun t => t.name == name) with
    | none => ([textBlock ("Error: Task '" ++ name ++ "' not found")], st)
    | some t =>
      if validStatus newStatus then
        ([textBlock ("Task '" ++ name ++ "' status changed from '" ++ t.status ++
            "' to '" ++ newStatus ++ "'")],
         ⟨st.rows.map (fun u =>
            if u.name == name then ⟨u.id, u.name, u.descr, newStatus, u.created_at, now⟩ else u),
          st.nextId⟩)
      else
        ([textBlock ("Error updating task: " ++ checkConstraintMsg)], st)

/-- `TaskManagerTool.execute`: route on the `option` argument. -/
def taskManagerExecute (args : Arguments) (now : String) (st : TaskStore) :
    List TextContent × TaskStore :=
  match args.option with
  | some "addTask" => addTask args now st
  | some "listTasks" => listTasks st
  | some "completeTask" => completeTask args now st
  | _ => ([textBlock "Error: Invalid option provided"], st)

/-- Result of `open(path, 'r')` in a tool: file content (after text-mode
newline translation), `FileNotFoundError`, or another I/O exception. -/
inductive FSResult where
  | found (content : List Char)
  | notFound
  | ioError (msg : String)
deriving Repr, DecidableEq

/-- The readable filesystem seen by `AnalyzeFileTool`. -/
def FileSystem := String → FSResult

/-- `os.path.isabs` on POSIX: the path starts with a slash. -/
def isAbs (p : String) : Bool := p.toList.head? == some '/'

/-- Path resolution in `AnalyzeFileTool.execute`: an absolute path is
kept, a relative path is joined to the project root directory
(`Path(__file__).parent.parent.parent`). -/
def resolvePath (root p : String) : String :=
  if isAbs p then p else root ++ "/" ++ p

/-- One pass of Python text-file iteration (`for line in f`): records
are split after each newline; `acc` holds the pending record reversed; a
non-empty trailing fragment is one final record. -/
def pyLinesAux : List Char → List Char → List (List Char)
  | [], acc => if acc.isEmpty then [] else [acc.reverse]
  | c :: cs, acc =>
    if c = '\n' then (acc.reverse ++ ['\n']) :: pyLinesAux cs []
    else pyLinesAux cs (c :: acc)

/-- The records `readline` iteration yields over a file's content. -/
def pyLines (content : List Char) : List (List Char) := pyLinesAux content []

/-- `sum(1 for line in f)`: the number of readline iterations. -/
def lineCount (content : List Char) : Nat := (pyLines content).length

/-- Exact substring check on character lists (`'TODO' in line`). -/
def hasSub (pat : List Char) : List Char → Bool
  | [] => pat.isEmpty
  | c :: cs => List.isPrefixOf pat (c :: cs) || hasSub pat cs

/-- `AnalyzeFileTool.execute`: presence-check the path, resolve it,
then run the selected analysis; every failure is reported as an
error-text block. -/
def analyzeFileExecute (root : String) (fs : FileSystem) (args : Arguments) :
    List TextContent :=
  let fp := args.file.getD ""
  let opts := args.options.getD ""
  if fp == "" then [textBlock "Error: No file path provided"]
  else
    let path := resolvePath root fp
    if opts == "lineCount" then
      match fs path with
      | .found content =>
        [textBlock ("File '" ++ path ++ "' has " ++ toString (lineCount content) ++ " lines")]
      | .notFound => [textBlock ("Error: File '" ++ path ++ "' not found")]
      | .ioError msg => [textBlock ("Error reading file: " ++ msg)]
    else if opts == "hasTodos" then
      match fs path with
      | .found content =>
        if (pyLines content).any (fun l => hasSub "TODO".toList l) then
          [textBlock ("File '" ++ path ++ "' has a TODO comment")]
        else
          [textBlock ("File '" ++ path ++ "' does not have a TODO comment")]
      | .notFound => [textBlock ("Error: File '" ++ path ++ "' not found")]
      | .ioError msg => [textBlock ("Error reading file: " ++ msg)]
    else [textBlock ("Error: Unknown analysis option '" ++ opts ++ "'")]

/-- A wall-clock date-time as read by `datetime.now()`. -/
structure DateTime where
  year : Nat
  month : Nat
  day : Nat
  hour : Nat
  minute : Nat
  second : Nat
deriving Repr, DecidableEq

/-- Zero-pad the decimal rendering of `n` to at least `w` digits (the
zero-padded fields of `strftime`). -/
def padZ (w n : Nat) : String :=
  String.mk (List.replicate (w - (toString n).length) '0') ++ toString n

/-- `datetime.now().strftime("%Y-%m-%d %H:%M:%S")`. -/
def formatTimestamp (t : DateTime) : String :=
  padZ 4 t.year ++ "-" ++ padZ 2 t.month ++ "-" ++ padZ 2 t.day ++ " " ++
  padZ 2 t.hour ++ ":" ++ padZ 2 t.minute ++ ":" ++ padZ 2 t.second

/-- The `work_log.txt` file: `none` when it does not exist. -/
abbrev Journal := Option (List Char)

/-- `WorkLoggingTool.execute`: presence-check the description, append the
line `"[<timestamp>] <description>\n"` (creating the file if absent) and
confirm. -/
def logWorkExecute (args : Arguments) (now : DateTime) (j : Journal) :
    List TextContent × Journal :=
  let d := args.description.getD ""
  if d == "" then ([textBlock "Error: No work description provided"], j)
  else
    let ts := formatTimestamp now
    ([textBlock ("Work logged successfully: " ++ d ++ " at " ++ ts)],
     some (j.getD [] ++ ("[" ++ ts ++ "] " ++ d ++ "\n").toList))

/-- Python `str.strip` whitespace, the characters `str.isspace` accepts:
the ASCII control whitespace `09`-`0D` and `1C`-`1F`, the space `20`,
`85` (next line), `A0` (no-break space), `1680` (ogham space mark), the
Unicode spaces `2000`-`200A`, `2028` and `2029` (line and paragraph
separators), `202F` (narrow no-break space), `205F` (medium mathematical
space) and `3000` (ideographic space). -/
def isPySpace (c : Char) : Bool :=
  (0x09 ≤ c.toNat && c.toNat ≤ 0x0D) || (0x1C ≤ c.toNat && c.toNat ≤ 0x20) ||
  c.toNat == 0x85 || c.toNat == 0xA0 || c.toNat == 0x1680 ||
  (0x2000 ≤ c.toNat && c.toNat ≤ 0x200A) || c.toNat == 0x2028 || c.toNat == 0x2029 ||
  c.toNat == 0x202F || c.toNat == 0x205F || c.toNat == 0x3000

/-- Python `str.strip()`: drop whitespace at both ends. -/
def pyStrip (cs : List Char) : List Char :=
  ((cs.dropWhile isPySpace).reverse.dropWhile isPySpace).reverse

/-- `GetWorkLogTool.execute`: missing file and all-whitespace content
report their fixed sentinels, otherwise the stripped content is returned
verbatim in one block. -/
def getWorkLogExecute (j : Journal) : List TextContent :=
  match j with
  | none => [textBlock "No work log entries found. The work log file does not exist."]
  | some content =>
    let t := pyStrip content
    if t.isEmpty then [textBlock "Work log is empty."]
    else [textBlock (String.mk t)]

/-- The combined state the four registered tools act on: project root,
filesystem, the work log, the task store, and the clocks the stateful
operations read (`datetime.now()` and SQLite `CURRENT_TIMESTAMP`). -/
structure ServerState where
  projectRoot : String
  fs : FileSystem
  journal : Journal
  tasks : TaskStore
  now : DateTime
  dbNow : String

/-- The tool names in the dictionary built by
`ToolRegistry._register_default_tools`, in registration order. -/
def registeredNames : List String :=
  ["analyzeFile", "logWork", "getWorkLog", "taskManager"]

/-- Run the registered tool `name` on the server state (the body of
`self._tools[name].execute(arguments)` for each registered tool). -/
def runTool (name : String) (args : Arguments) (st : ServerState) :
    List TextContent × ServerState :=
  if name == "analyzeFile" then (analyzeFileExecute st.projectRoot st.fs args, st)
  else if name == "logWork" then
    let r := logWorkExecute args st.now st.journal
    (r.1, { st with journal := r.2 })
  else if name == "getWorkLog" then (getWorkLogExecute st.journal, st)
  else
    let r := taskManagerExecute args st.dbNow st.tasks
    (r.1, { st with tasks := r.2 })

/-- `ToolRegistry.execute_tool`: raise `ValueError(f"Unknown tool: {name}")`
when `name` is not a key of the registry, otherwise await and return the
tool's `execute` result unmodified. -/
def executeTool (name : String) (args : Arguments) (st : ServerState) :
    Except String (List TextContent × ServerState) :=
  if registeredNames.contains name then .ok (runTool name args st)
  else .error ("Unknown tool: " ++ name)

/-- The row a successful `addTask` inserts: next id, the given name and
description, status `'not complete'`, both timestamps `now`. -/
def addedRow (st : TaskStore) (X d now : String) : Task :=
  ⟨st.nextId, X, some d, "not complete", now, now⟩

/-- The store after a successful `addTask`. -/
def afterAdd (st : TaskStore) (X d now : String) : TaskStore :=
  ⟨st.rows ++ [addedRow st X d now], st.nextId + 1⟩

/-- The status invariant of the `tasks` table: every row's status is one
of the two CHECK-constraint values. -/
def statusInv (st : TaskStore) : Prop :=
  ∀ t ∈ st.rows, t.status = "complete" ∨ t.status = "not complete"

/-- Apply a sequence of task-manager invocations (each with its
`CURRENT_TIMESTAMP` reading) to a store, keeping the final store. -/
def applyOps (ops : List (Arguments × String)) (st : TaskStore) : TaskStore :=
  ops.foldl (fun s p => (taskManagerExecute p.1 p.2 s).2) st

/-- The ordering `ORDER BY created_at DESC` establishes: each row's
creation timestamp is at least the next one's. -/
def createdGe (a b : Task) : Prop := b.created_at ≤ a.created_at

/-- Split a character list at newlines (no terminators kept), `acc`
holding the pending line reversed: the lines of a text blob. -/
def splitNlAux : List Char → List Char → List (List Char)
  | [], acc => [acc.reverse]
  | c :: cs, acc => if c = '\n' then acc.reverse :: splitNlAux cs [] else splitNlAux cs (c :: acc)

/-- The lines of a character list. -/
def splitNl (cs : List Char) : List (List Char) := splitNlAux cs []

/-- One logged line as written by `WorkLoggingTool.execute`, without its
trailing newline: the bracketed timestamp, a space, the description. -/
def logLine (t : DateTime) (E : String) : List Char :=
  '[' :: ((formatTimestamp t).toList ++ ']' :: ' ' :: E.toList)

/-- Digit-count bounds under which every `strftime` field of a wall-clock
reading renders within its zero-padding width. -/
def DateTime.bounded (t : DateTime) : Prop :=
  t.year < 10000 ∧ t.month < 100 ∧ t.day < 100 ∧
  t.hour < 100 ∧ t.minute < 100 ∧ t.second < 100

/-- A concrete server state used to instantiate theorems: empty store,
no work log, a filesystem with no files. -/
def sampleState : ServerState :=
  ⟨"/project", fun _ => FSResult.notFound, none, TaskStore.empty,
   ⟨2026, 1, 2, 3, 4, 5⟩, "2026-01-02 03:04:05"⟩

/-- A concrete one-row store (task `T`, already complete) used to
instantiate theorems. -/
def sampleStore : TaskStore :=
  ⟨[⟨1, "T", some "demo", "complete", "2026-01-02 03:04:05", "2026-01-02 03:04:05"⟩], 2⟩

/-- A concrete filesystem holding one two-line file (second line
unterminated), used to instantiate theorems. -/
def sampleFs : FileSystem := fun path =>
  if path == "/project/notes.txt" then FSResult.found "a\nb".toList else FSResult.notFound

/-! ## Theorems about the dispatcher and the simple tools -/

/-- Claim C1: dispatching an unregistered operation name raises the
protocol-level failure carrying the requested name; dispatching a
registered name raises nothing and returns the matched tool's `execute`
result unmodified. -/
theorem C1_dispatch (name : String) (args : Arguments) (st : ServerState) :
    (registeredNames.contains name = false →
      executeTool name args st = Except.error ("Unknown tool: " ++ name)) ∧
    (registeredNames.contains name = true →
      executeTool name args st = Except.ok (runTool name args st)) := by
  constructor <;> intro h <;> (unfold executeTool; rw [h]; simp)

/-- Witness for C1: the unknown name `frobnicate` fails with the error
carrying it, while the registered name `taskManager` dispatches to the
matched tool. -/
theorem C1_dispatch_witness :
    executeTool "frobnicate" {} sampleState = Except.error ("Unknown tool: " ++ "frobnicate") ∧
    executeTool "taskManager" {} sampleState = Except.ok (runTool "taskManager" {} sampleState) :=
  ⟨(C1_dispatch "frobnicate" {} sampleState).1 (by decide),
   (C1_dispatch "taskManager" {} sampleState).2 (by decide)⟩

/-- Claim C9: the journal write rejects a description exactly when it is
absent or the empty string (reporting the fixed error block); every
other description, whitespace-only included, is accepted and appended
with its timestamp. -/
theorem C9_description_presence (args : Arguments) (now : DateTime) (j : Journal) :
    ((args.description = none ∨ args.description = some "") →
      logWorkExecute args now j = ([textBlock "Error: No work description provided"], j)) ∧
    (∀ d : String, args.description = some d → d ≠ "" →
      logWorkExecute args now j =
        ([textBlock ("Work logged successfully: " ++ d ++ " at " ++ formatTimestamp now)],
         some (j.getD [] ++ ("[" ++ formatTimestamp now ++ "] " ++ d ++ "\n").toList))) := by
  constructor
  · rintro (h | h) <;> simp [logWorkExecute, h]
  · intro d hd hne
    simp [logWorkExecute, hd, hne]

/-- Witness for C9: the whitespace-only description accepted and
appended, the empty-string description rejected. -/
theorem C9_description_presence_witness :
    logWorkExecute { description := some " " } ⟨2026, 1, 2, 3, 4, 5⟩ none =
      ([textBlock ("Work logged successfully: " ++ " " ++ " at " ++
          formatTimestamp ⟨2026, 1, 2, 3, 4, 5⟩)],
       some ((none : Journal).getD [] ++
          ("[" ++ formatTimestamp ⟨2026, 1, 2, 3, 4, 5⟩ ++ "] " ++ " " ++ "\n").toList)) ∧
    logWorkExecute { description := some "" } ⟨2026, 1, 2, 3, 4, 5⟩ none =
      ([textBlock "Error: No work description provided"], none) :=
  ⟨(C9_description_presence { description := some " " } ⟨2026, 1, 2, 3, 4, 5⟩ none).2
      " " rfl (by decide),
   (C9_description_presence { description := some "" } ⟨2026, 1, 2, 3, 4, 5⟩ none).1
      (Or.inr rfl)⟩

/-- Claim C10: each registered tool's `execute` returns exactly one text
content block, on every success and every error path. -/
theorem C10_exactly_one_block (root : String) (fs : FileSystem) (args : Arguments)
    (now : DateTime) (j : Journal) (dbNow : String) (st : TaskStore) :
    (analyzeFileExecute root fs args).length = 1 ∧
    (logWorkExecute args now j).1.length = 1 ∧
    (getWorkLogExecute j).length = 1 ∧
    (taskManagerExecute args dbNow st).1.length = 1 := by
  refine ⟨?_, ?_, ?_, ?_⟩
  · simp only [analyzeFileExecute]
    repeat' split
    all_goals rfl
  · simp only [logWorkExecute]
    split
    all_goals rfl
  · simp only [getWorkLogExecute]
    rcases j with _ | c
    · rfl
    · simp only []
      split
      all_goals rfl
  · simp only [taskManagerExecute, addTask, listTasks, completeTask]
    repeat' split
    all_goals rfl

/-! ## Theorems about the task ledger -/

/-- Claim C5: completing a task name that does not exist in the store
reports the not-found error naming it and leaves the store unchanged. -/
theorem C5_complete_nonexistent (st : TaskStore) (N S now : String)
    (hN : N ≠ "") (hS : validStatus S = true)
    (habs : ∀ t ∈ st.rows, t.name ≠ N) :
    taskManagerExecute
        { option := some "completeTask", taskName := some N, completionStatus := some S } now st =
      ([textBlock ("Error: Task '" ++ N ++ "' not found")], st) := by
  have hS' : S ≠ "" := by
    rintro rfl
    simp [validStatus] at hS
  have hfind : st.rows.find? (fun t => t.name == N) = none := by
    rw [List.find?_eq_none]
    intro t ht
    simpa using habs t ht
  simp [taskManagerExecute, completeTask, truthy, hN, hS', hfind]

/-- Witness for C5 on a concrete store that has no task named `ghost`. -/
theorem C5_complete_nonexistent_witness :
    taskManagerExecute
        { option := some "completeTask", taskName := some "ghost",
          completionStatus := some "complete" } "2026-01-03 00:00:00" sampleStore =
      ([textBlock ("Error: Task '" ++ "ghost" ++ "' not found")], sampleStore) :=
  C5_complete_nonexistent sampleStore "ghost" "complete" "2026-01-03 00:00:00"
    (by decide) (by decide) (by decide)

/-- A truthy string argument, unfolded. -/
theorem truthy_some {s : String} (h : s ≠ "") : truthy (some s) = true := by
  simp [truthy, h]

/-- A valid completion status is a non-empty string. -/
theorem validStatus_ne_empty {s : String} (h : validStatus s = true) : s ≠ "" := by
  rintro rfl
  simp [validStatus] at h

/-- Claim C2: after a successful `addTask` of `X`, a second `addTask`
with the same name reports the duplicate error (the distinct
`already exists` message, not the generic storage failure), leaves the
store unchanged, and the store holds exactly one row named `X`. -/
theorem C2_duplicate_add (st : TaskStore) (X d1 d2 now1 now2 : String)
    (hX : X ≠ "") (hd1 : d1 ≠ "") (hd2 : d2 ≠ "")
    (hfresh : ∀ t ∈ st.rows, t.name ≠ X) :
    taskManagerExecute
        { option := some "addTask", taskName := some X, description := some d1 } now1 st =
      ([textBlock ("Task '" ++ X ++ "' added successfully")], afterAdd st X d1 now1) ∧
    taskManagerExecute
        { option := some "addTask", taskName := some X, description := some d2 } now2
        (afterAdd st X d1 now1) =
      ([textBlock ("Error: Task '" ++ X ++ "' already exists")], afterAdd st X d1 now1) ∧
    ((afterAdd st X d1 now1).rows.filter (fun t => t.name == X)).length = 1 := by
  have hany : st.rows.any (fun t => t.name == X) = false := by
    rw [List.any_eq_false]
    intro t ht
    simpa using hfresh t ht
  have hfilter : st.rows.filter (fun t => t.name == X) = [] := by
    rw [List.filter_eq_nil_iff]
    intro t ht
    simpa using hfresh t ht
  refine ⟨?_, ?_, ?_⟩
  · simp [taskManagerExecute, addTask, truthy_some hX, truthy_some hd1, hany,
      afterAdd, addedRow]
  · simp [taskManagerExecute, addTask, truthy_some hX, truthy_some hd2,
      afterAdd, addedRow]
  · show ((st.rows ++ [addedRow st X d1 now1]).filter (fun t => t.name == X)).length = 1
    rw [List.filter_append, hfilter]
    simp [addedRow]

/-- Witness for C2: adding `X` twice to the empty store. -/
theorem C2_duplicate_add_witness :
    taskManagerExecute
        { option := some "addTask", taskName := some "X", description := some "one" }
        "2026-01-02 03:04:05" TaskStore.empty =
      ([textBlock ("Task '" ++ "X" ++ "' added successfully")],
       afterAdd TaskStore.empty "X" "one" "2026-01-02 03:04:05") ∧
    taskManagerExecute
        { option := some "addTask", taskName := some "X", description := some "two" }
        "2026-01-02 03:05:00" (afterAdd TaskStore.empty "X" "one" "2026-01-02 03:04:05") =
      ([textBlock ("Error: Task '" ++ "X" ++ "' already exists")],
       afterAdd TaskStore.empty "X" "one" "2026-01-02 03:04:05") ∧
    ((afterAdd TaskStore.empty "X" "one" "2026-01-02 03:04:05").rows.filter
        (fun t => t.name == "X")).length = 1 :=
  C2_duplicate_add TaskStore.empty "X" "one" "two" "2026-01-02 03:04:05" "2026-01-02 03:05:00"
    (by decide) (by decide) (by decide) (by decide)

/-- Claim C3: completing an existing task with a valid status sets the
row's status to the new value (both directions of the transition are
allowed) and reports the transition message built from the status read
before the write in the same operation. -/
theorem C3_complete_transition (st : TaskStore) (N S' now : String) (t : Task)
    (hfind : st.rows.find? (fun u => u.name == N) = some t)
    (hN : N ≠ "") (hS : validStatus S' = true) :
    taskManagerExecute
        { option := some "completeTask", taskName := some N, completionStatus := some S' } now st =
      ([textBlock ("Task '" ++ N ++ "' status changed from '" ++ t.status ++
          "' to '" ++ S' ++ "'")],
       ⟨st.rows.map (fun u =>
          if u.name == N then ⟨u.id, u.name, u.descr, S', u.created_at, now⟩ else u),
        st.nextId⟩) ∧
    ∀ u ∈ (taskManagerExecute
        { option := some "completeTask", taskName := some N, completionStatus := some S' }
        now st).2.rows, u.name = N → u.status = S' := by
  have hS' : S' ≠ "" := validStatus_ne_empty hS
  have hmain : taskManagerExecute
      { option := some "completeTask", taskName := some N, completionStatus := some S' } now st =
      ([textBlock ("Task '" ++ N ++ "' status changed from '" ++ t.status ++
          "' to '" ++ S' ++ "'")],
       ⟨st.rows.map (fun u =>
          if u.name == N then ⟨u.id, u.name, u.descr, S', u.created_at, now⟩ else u),
        st.nextId⟩) := by
    simp [taskManagerExecute, completeTask, truthy_some hN, truthy_some hS', hfind, hS]
  refine ⟨hmain, ?_⟩
  rw [hmain]
  intro u hu hname
  rcases List.mem_map.1 hu with ⟨v, hv, rfl⟩
  by_cases h : v.name = N
  · simp [h]
  · simp [h] at hname

/-- Witness for C3: the reverse transition `complete -> not complete` on
the concrete one-row store. -/
theorem C3_complete_transition_witness :
    taskManagerExecute
        { option := some "completeTask", taskName := some "T",
          completionStatus := some "not complete" } "2026-01-03 00:00:00" sampleStore =
      ([textBlock ("Task '" ++ "T" ++ "' status changed from '" ++
          ("complete" : String) ++ "' to '" ++ "not complete" ++ "'")],
       ⟨sampleStore.rows.map (fun u =>
          if u.name == "T" then
            ⟨u.id, u.name, u.descr, "not complete", u.created_at, "2026-01-03 00:00:00"⟩
          else u),
        sampleStore.nextId⟩) ∧
    ∀ u ∈ (taskManagerExecute
        { option := some "completeTask", taskName := some "T",
          completionStatus := some "not complete" } "2026-01-03 00:00:00" sampleStore).2.rows,
      u.name = "T" → u.status = "not complete" :=
  C3_complete_transition sampleStore "T" "not complete" "2026-01-03 00:00:00"
    ⟨1, "T", some "demo", "complete", "2026-01-02 03:04:05", "2026-01-02 03:04:05"⟩
    (by decide) (by decide) (by decide)

/-- One task-manager invocation preserves the status invariant. -/
theorem statusInv_step (args : Arguments) (now : String) (st : TaskStore)
    (h : statusInv st) : statusInv (taskManagerExecute args now st).2 := by
  unfold taskManagerExecute
  split
  · unfold addTask
    split
    · exact h
    · dsimp only
      split
      · exact h
      · intro t ht
        rcases List.mem_append.1 ht with hl | hr
        · exact h t hl
        · rcases List.mem_singleton.1 hr with rfl
          exact Or.inr rfl
  · unfold listTasks
    dsimp only
    split
    · exact h
    · exact h
  · unfold completeTask
    split
    · exact h
    · dsimp only
      split
      · exact h
      · rename_i t0 hfind
        split
        · rename_i hvalid
          intro u hu
          rcases List.mem_map.1 hu with ⟨v, hv, rfl⟩
          split
          · simpa [validStatus] using hvalid
          · exact h v hv
        · exact h
  · exact h

/-- Claim C4: starting from the fresh store, any sequence of task-ledger
operations leaves every row's status one of the two enumerated values;
in particular a `completeTask` whose completion status is outside them
leaves the store unchanged and returns a single error block. -/
theorem C4_status_invariant :
    (∀ ops : List (Arguments × String), statusInv (applyOps ops TaskStore.empty)) ∧
    (∀ (args : Arguments) (now : String) (st : TaskStore),
      args.option = some "completeTask" →
      validStatus (args.completionStatus.getD "") = false →
      (taskManagerExecute args now st).2 = st ∧
      (taskManagerExecute args now st).1.length = 1 ∧
      ∀ b ∈ (taskManagerExecute args now st).1, ∃ r, b.text = "Error" ++ r) := by
  constructor
  · have hstep : ∀ (ops : List (Arguments × String)) (st : TaskStore),
        statusInv st → statusInv (applyOps ops st) := by
      intro ops
      induction ops with
      | nil => intro st h; exact h
      | cons p ps ih =>
        intro st h
        exact ih _ (statusInv_step p.1 p.2 st h)
    intro ops
    refine hstep ops TaskStore.empty ?_
    intro t ht
    simp [TaskStore.empty] at ht
  · intro args now st hopt hbad
    have hred : taskManagerExecute args now st = completeTask args now st := by
      unfold taskManagerExecute
      rw [hopt]
      rfl
    rw [hred]
    unfold completeTask
    split
    · refine ⟨rfl, rfl, ?_⟩
      intro b hb
      rcases List.mem_singleton.1 hb with rfl
      exact ⟨": taskName and completionStatus are required for completeTask", rfl⟩
    · dsimp only
      split
      · refine ⟨rfl, rfl, ?_⟩
        intro b hb
        rcases List.mem_singleton.1 hb with rfl
        refine ⟨": Task '" ++ args.taskName.getD "" ++ "' not found", ?_⟩
        rw [← String.append_assoc, ← String.append_assoc]
        rfl
      · split
        · rename_i hvalid
          rw [hbad] at hvalid
          cases hvalid
        · refine ⟨rfl, rfl, ?_⟩
          intro b hb
          rcases List.mem_singleton.1 hb with rfl
          exact ⟨" updating task: " ++ checkConstraintMsg, rfl⟩

/-- Witness for C4: one-step sequence from the fresh store, and a
`completeTask` with the out-of-range status `done` on the concrete
store. -/
theorem C4_status_invariant_witness :
    statusInv (applyOps
      [({ option := some "addTask", taskName := some "A", description := some "d" },
        "2026-01-02 03:04:05")] TaskStore.empty) ∧
    ((taskManagerExecute
        { option := some "completeTask", taskName := some "T", completionStatus := some "done" }
        "2026-01-03 00:00:00" sampleStore).2 = sampleStore ∧
     (taskManagerExecute
        { option := some "completeTask", taskName := some "T", completionStatus := some "done" }
        "2026-01-03 00:00:00" sampleStore).1.length = 1 ∧
     ∀ b ∈ (taskManagerExecute
        { option := some "completeTask", taskName := some "T", completionStatus := some "done" }
        "2026-01-03 00:00:00" sampleStore).1, ∃ r, b.text = "Error" ++ r) :=
  ⟨C4_status_invariant.1
      [({ option := some "addTask", taskName := some "A", description := some "d" },
        "2026-01-02 03:04:05")],
   C4_status_invariant.2
      { option := some "completeTask", taskName := some "T", completionStatus := some "done" }
      "2026-01-03 00:00:00" sampleStore rfl (by decide)⟩

/-- Inserting into a list is a permutation of consing. -/
theorem perm_insertByCreatedDesc (t : Task) (l : List Task) :
    List.Perm (insertByCreatedDesc t l) (t :: l) := by
  induction l with
  | nil => exact List.Perm.refl _
  | cons u us ih =>
    unfold insertByCreatedDesc
    split
    · exact List.Perm.refl _
    · exact (ih.cons u).trans (List.Perm.swap t u us)

/-- Inserting into a list sorted by creation time descending keeps it
sorted. -/
theorem sorted_insertByCreatedDesc (t : Task) (l : List Task)
    (h : List.Sorted createdGe l) : List.Sorted createdGe (insertByCreatedDesc t l) := by
  induction l with
  | nil => simp [insertByCreatedDesc]
  | cons u us ih =>
    rw [List.sorted_cons] at h
    obtain ⟨hu, hus⟩ := h
    unfold insertByCreatedDesc
    split
    · rename_i hle
      rw [List.sorted_cons]
      refine ⟨?_, ?_⟩
      · intro b hb
        rcases List.mem_cons.1 hb with rfl | hbus
        · exact hle
        · exact le_trans (hu b hbus) hle
      · rw [List.sorted_cons]
        exact ⟨hu, hus⟩
    · rename_i hgt
      rw [List.sorted_cons]
      refine ⟨?_, ih hus⟩
      intro b hb
      have hb' : b ∈ t :: us := (perm_insertByCreatedDesc t us).mem_iff.1 hb
      rcases List.mem_cons.1 hb' with rfl | hbus
      · exact le_of_not_le hgt
      · exact hu b hbus

/-- The model of `ORDER BY created_at DESC` permutes the stored rows. -/
theorem perm_sortByCreatedDesc (l : List Task) : List.Perm (sortByCreatedDesc l) l := by
  induction l with
  | nil => exact List.Perm.refl _
  | cons u us ih =>
    exact (perm_insertByCreatedDesc u (sortByCreatedDesc us)).trans (ih.cons u)

/-- The model of `ORDER BY created_at DESC` sorts by creation time, most
recent first. -/
theorem sorted_sortByCreatedDesc (l : List Task) :
    List.Sorted createdGe (sortByCreatedDesc l) := by
  induction l with
  | nil => simp [sortByCreatedDesc]
  | cons u us ih => exact sorted_insertByCreatedDesc u _ ih

/-- Claim C8: `listTasks` on the empty store reports the fixed
`No tasks found` block; on a non-empty store it returns one block
joining a formatted record per task, the tasks ordered by creation time
with the most recent first (a sorted permutation of the store). -/
theorem C8_list_tasks (st : TaskStore) (now : String) :
    (st.rows = [] →
      taskManagerExecute { option := some "listTasks" } now st =
        ([textBlock "No tasks found"], st)) ∧
    (st.rows ≠ [] →
      taskManagerExecute { option := some "listTasks" } now st =
        ([textBlock (String.intercalate "\n"
            ((sortByCreatedDesc st.rows).map formatTaskRecord))], st)) ∧
    List.Perm (sortByCreatedDesc st.rows) st.rows ∧
    List.Sorted createdGe (sortByCreatedDesc st.rows) := by
  refine ⟨?_, ?_, perm_sortByCreatedDesc st.rows, sorted_sortByCreatedDesc st.rows⟩
  · intro h
    simp [taskManagerExecute, listTasks, h, sortByCreatedDesc]
  · intro h
    have hne : sortByCreatedDesc st.rows ≠ [] := by
      intro he
      apply h
      have hlen := (perm_sortByCreatedDesc st.rows).length_eq
      rw [he] at hlen
      exact List.length_eq_zero.1 hlen.symm
    have hempty : (sortByCreatedDesc st.rows).isEmpty = false := by
      rcases hs : sortByCreatedDesc st.rows with _ | ⟨a, as⟩
      · exact absurd hs hne
      · rfl
    simp [taskManagerExecute, listTasks, hempty]

/-- Witness for C8: the empty store and the concrete one-row store. -/
theorem C8_list_tasks_witness :
    taskManagerExecute { option := some "listTasks" } "2026-01-03 00:00:00" TaskStore.empty =
      ([textBlock "No tasks found"], TaskStore.empty) ∧
    taskManagerExecute { option := some "listTasks" } "2026-01-03 00:00:00" sampleStore =
      ([textBlock (String.intercalate "\n"
          ((sortByCreatedDesc sampleStore.rows).map formatTaskRecord))], sampleStore) :=
  ⟨(C8_list_tasks TaskStore.empty "2026-01-03 00:00:00").1 rfl,
   (C8_list_tasks sampleStore "2026-01-03 00:00:00").2.1 (by decide)⟩

/-! ## Theorems about the file inspection tool -/

/-- Unfolding step of `pyLinesAux` on the empty input. -/
theorem pyLinesAux_nil (acc : List Char) :
    pyLinesAux [] acc = if acc.isEmpty then [] else [acc.reverse] := rfl

/-- Unfolding step of `pyLinesAux` on a cons. -/
theorem pyLinesAux_cons (c : Char) (cs acc : List Char) :
    pyLinesAux (c :: cs) acc =
      if c = '\n' then (acc.reverse ++ ['\n']) :: pyLinesAux cs []
      else pyLinesAux cs (c :: acc) := rfl

/-- Iterating a newline-free non-empty tail yields one final record. -/
theorem pyLinesAux_no_newline (frag : List Char) (h : '\n' ∉ frag) :
    ∀ acc : List Char, acc ≠ [] ∨ frag ≠ [] →
      pyLinesAux frag acc = [acc.reverse ++ frag] := by
  induction frag with
  | nil =>
    intro acc hne
    rcases hne with hacc | hfrag
    · rcases acc with _ | ⟨a, as⟩
      · exact absurd rfl hacc
      · simp [pyLinesAux]
    · exact absurd rfl hfrag
  | cons c cs ih =>
    intro acc _
    have hc : c ≠ '\n' := fun he => h (he ▸ List.mem_cons_self c cs)
    rw [pyLinesAux_cons, if_neg hc]
    rw [ih (fun hm => h (List.mem_cons_of_mem c hm)) (c :: acc) (Or.inl (by simp))]
    simp

/-- Iterating past a newline-free record and its terminator emits that
record and continues on the rest. -/
theorem pyLinesAux_term (l : List Char) (h : '\n' ∉ l) (rest : List Char) :
    ∀ acc, pyLinesAux (l ++ '\n' :: rest) acc =
      ((acc.reverse ++ l) ++ ['\n']) :: pyLinesAux rest [] := by
  induction l with
  | nil =>
    intro acc
    simp only [List.nil_append]
    rw [pyLinesAux_cons, if_pos rfl]
    simp
  | cons c cs ih =>
    intro acc
    have hc : c ≠ '\n' := fun he => h (he ▸ List.mem_cons_self c cs)
    show pyLinesAux (c :: (cs ++ '\n' :: rest)) acc = _
    rw [pyLinesAux_cons, if_neg hc]
    rw [ih (fun hm => h (List.mem_cons_of_mem c hm)) (c :: acc)]
    simp

/-- Iterating a sequence of terminated newline-free records followed by
anything yields those records and then the iteration of the rest. -/
theorem pyLinesAux_join (lines : List (List Char)) (h : ∀ l ∈ lines, '\n' ∉ l)
    (rest : List Char) :
    pyLinesAux ((lines.map (fun l => l ++ ['\n'])).flatten ++ rest) [] =
      lines.map (fun l => l ++ ['\n']) ++ pyLinesAux rest [] := by
  induction lines with
  | nil => simp
  | cons l ls ih =>
    have h1 : '\n' ∉ l := h l (List.mem_cons_self l ls)
    have h2 : ∀ m ∈ ls, '\n' ∉ m := fun m hm => h m (List.mem_cons_of_mem l hm)
    simp only [List.map_cons, List.flatten_cons, List.append_assoc]
    rw [show ('\n' :: ([] : List Char)) ++ ((ls.map (fun l => l ++ ['\n'])).flatten ++ rest) =
        '\n' :: ((ls.map (fun l => l ++ ['\n'])).flatten ++ rest) from rfl]
    rw [pyLinesAux_term l h1 _ []]
    rw [ih h2]
    simp

/-- Claim C6: the `lineCount` analysis of a readable file reports the
block naming the resolved path and the readline-iteration count; that
count is 0 on the empty file, N on N terminator-ended records, and one
more when a non-empty unterminated fragment trails. -/
theorem C6_line_count (root : String) (fs : FileSystem) (p : String) (content : List Char) :
    (p ≠ "" → fs (resolvePath root p) = FSResult.found content →
      analyzeFileExecute root fs { file := some p, options := some "lineCount" } =
        [textBlock ("File '" ++ resolvePath root p ++ "' has " ++
          toString (lineCount content) ++ " lines")]) ∧
    lineCount [] = 0 ∧
    (∀ lines : List (List Char), (∀ l ∈ lines, '\n' ∉ l) →
      lineCount (lines.map (fun l => l ++ ['\n'])).flatten = lines.length) ∧
    (∀ (lines : List (List Char)) (frag : List Char),
      (∀ l ∈ lines, '\n' ∉ l) → frag ≠ [] → '\n' ∉ frag →
      lineCount ((lines.map (fun l => l ++ ['\n'])).flatten ++ frag) = lines.length + 1) := by
  refine ⟨?_, rfl, ?_, ?_⟩
  · intro hp hfs
    simp [analyzeFileExecute, hp, hfs]
  · intro lines h
    have hj := pyLinesAux_join lines h []
    rw [List.append_nil] at hj
    unfold lineCount pyLines
    rw [hj]
    simp [pyLinesAux]
  · intro lines frag h hne hnl
    unfold lineCount pyLines
    rw [pyLinesAux_join lines h frag]
    rw [pyLinesAux_no_newline frag hnl [] (Or.inr hne)]
    simp

/-- Witness for C6: the concrete file `a\nb` (one terminated record plus
an unterminated fragment) reports 2 lines, and the counting identities
hold on concrete records. -/
theorem C6_line_count_witness :
    analyzeFileExecute "/project" sampleFs { file := some "notes.txt", options := some "lineCount" } =
      [textBlock ("File '" ++ resolvePath "/project" "notes.txt" ++ "' has " ++
        toString (lineCount "a\nb".toList) ++ " lines")] ∧
    lineCount (([['a']].map (fun l => l ++ ['\n'])).flatten) = [['a']].length ∧
    lineCount (([['a']].map (fun l => l ++ ['\n'])).flatten ++ ['b']) = [['a']].length + 1 :=
  ⟨(C6_line_count "/project" sampleFs "notes.txt" "a\nb".toList).1 (by decide) (by decide),
   (C6_line_count "/project" sampleFs "notes.txt" "a\nb".toList).2.2.1 [['a']] (by decide),
   (C6_line_count "/project" sampleFs "notes.txt" "a\nb".toList).2.2.2 [['a']] ['b']
     (by decide) (by decide) (by decide)⟩

/-! ## Theorems about the work log round trip -/

/-- String append concatenates the character lists. -/
theorem toList_append (s t : String) : (s ++ t).toList = s.toList ++ t.toList := rfl

/-- The digit characters are digits. -/
theorem digitChar_isDigit {n : Nat} (h : n < 10) : (Nat.digitChar n).isDigit = true := by
  interval_cases n <;> decide

/-- Unfolding step of `Nat.toDigitsCore` with positive fuel. -/
theorem toDigitsCore_succ (f n : Nat) (acc : List Char) :
    Nat.toDigitsCore 10 (f + 1) n acc =
      if n / 10 = 0 then Nat.digitChar (n % 10) :: acc
      else Nat.toDigitsCore 10 f (n / 10) (Nat.digitChar (n % 10) :: acc) := rfl

/-- Every character `Nat.toDigitsCore` emits over digit accumulators is
a digit. -/
theorem toDigitsCore_digits (fuel : Nat) :
    ∀ (n : Nat) (acc : List Char), n < fuel → (∀ c ∈ acc, c.isDigit = true) →
      ∀ c ∈ Nat.toDigitsCore 10 fuel n acc, c.isDigit = true := by
  induction fuel with
  | zero => intro n acc h; omega
  | succ f ih =>
    intro n acc hn hacc c hc
    rw [toDigitsCore_succ] at hc
    by_cases h0 : n / 10 = 0
    · rw [if_pos h0] at hc
      rcases List.mem_cons.1 hc with rfl | hmem
      · exact digitChar_isDigit (Nat.mod_lt n (by norm_num))
      · exact hacc c hmem
    · rw [if_neg h0] at hc
      have hpos : 0 < n := by
        rcases Nat.eq_zero_or_pos n with rfl | hp
        · simp at h0
        · exact hp
      refine ih (n / 10) _ ?_ ?_ c hc
      · exact lt_of_lt_of_le (Nat.div_lt_self hpos (by norm_num)) (Nat.lt_succ_iff.1 hn)
      · intro c' hc'
        rcases List.mem_cons.1 hc' with rfl | hmem
        · exact digitChar_isDigit (Nat.mod_lt n (by norm_num))
        · exact hacc c' hmem

/-- `Nat.toDigitsCore` emits at most `w` digits for `n < 10 ^ w`. -/
theorem toDigitsCore_length (fuel : Nat) :
    ∀ (n w : Nat) (acc : List Char), n < fuel → 1 ≤ w → n < 10 ^ w →
      (Nat.toDigitsCore 10 fuel n acc).length ≤ w + acc.length := by
  induction fuel with
  | zero => intro n w acc h; omega
  | succ f ih =>
    intro n w acc hn hw hnw
    rw [toDigitsCore_succ]
    by_cases h0 : n / 10 = 0
    · rw [if_pos h0]
      simp only [List.length_cons]
      omega
    · rw [if_neg h0]
      have h10 : 10 ≤ n := by
        by_contra hlt
        push_neg at hlt
        exact h0 (Nat.div_eq_of_lt hlt)
      have hw2 : 2 ≤ w := by
        by_contra hlt
        push_neg at hlt
        have hw1 : w = 1 := by omega
        rw [hw1, pow_one] at hnw
        omega
      have hdiv : n / 10 < 10 ^ (w - 1) := by
        apply Nat.div_lt_of_lt_mul
        have heq : 10 * 10 ^ (w - 1) = 10 ^ w := by
          rw [← pow_succ']
          congr 1
          omega
        omega
      have hfuel : n / 10 < f :=
        lt_of_lt_of_le (Nat.div_lt_self (by omega) (by norm_num)) (Nat.lt_succ_iff.1 hn)
      have hrec := ih (n / 10) (w - 1) (Nat.digitChar (n % 10) :: acc) hfuel (by omega) hdiv
      simp only [List.length_cons] at hrec
      omega

/-- The decimal rendering of a natural number is all digits. -/
theorem repr_digits (n : Nat) : ∀ c ∈ (toString n).toList, c.isDigit = true :=
  toDigitsCore_digits (n + 1) n [] (Nat.lt_succ_self n) (by simp)

/-- The decimal rendering of `n < 10 ^ w` has at most `w` digits. -/
theorem repr_length_le (n w : Nat) (hw : 1 ≤ w) (h : n < 10 ^ w) :
    (toString n).toList.length ≤ w := by
  have hlen := toDigitsCore_length (n + 1) n w [] (Nat.lt_succ_self n) hw h
  simpa using hlen

/-- The character list of a zero-padded field. -/
theorem padZ_toList (w n : Nat) :
    (padZ w n).toList =
      List.replicate (w - (toString n).toList.length) '0' ++ (toString n).toList := rfl

/-- A zero-padded field of a bounded value has exactly the pad width. -/
theorem padZ_length (w n : Nat) (hw : 1 ≤ w) (h : n < 10 ^ w) :
    (padZ w n).toList.length = w := by
  have hle := repr_length_le n w hw h
  rw [padZ_toList]
  simp only [List.length_append, List.length_replicate]
  omega

/-- Every character of a zero-padded field is a digit. -/
theorem padZ_digits (w n : Nat) : ∀ c ∈ (padZ w n).toList, c.isDigit = true := by
  rw [padZ_toList]
  intro c hc
  rcases List.mem_append.1 hc with hl | hr
  · rw [List.eq_of_mem_replicate hl]
    decide
  · exact repr_digits n c hr

/-- The character list of a formatted timestamp, split at its
separators. -/
theorem formatTimestamp_toList (t : DateTime) :
    (formatTimestamp t).toList =
      (padZ 4 t.year).toList ++ '-' :: ((padZ 2 t.month).toList ++ '-' ::
      ((padZ 2 t.day).toList ++ ' ' :: ((padZ 2 t.hour).toList ++ ':' ::
      ((padZ 2 t.minute).toList ++ ':' :: (padZ 2 t.second).toList)))) := by
  simp [formatTimestamp, toList_append, List.append_assoc,
    show "-".toList = ['-'] from rfl, show " ".toList = [' '] from rfl,
    show ":".toList = [':'] from rfl]

/-- Destructure a four-element list. -/
theorem list_eq_four {α : Type} {l : List α} (h : l.length = 4) :
    ∃ a b c d, l = [a, b, c, d] := by
  rcases l with _ | ⟨a, _ | ⟨b, _ | ⟨c, _ | ⟨d, _ | ⟨e, t⟩⟩⟩⟩⟩
  · simp at h
  · simp at h
  · simp at h
  · simp at h
  · exact ⟨a, b, c, d, rfl⟩
  · simp at h

/-- Destructure a two-element list. -/
theorem list_eq_two {α : Type} {l : List α} (h : l.length = 2) :
    ∃ a b, l = [a, b] := by
  rcases l with _ | ⟨a, _ | ⟨b, _ | ⟨c, t⟩⟩⟩
  · simp at h
  · simp at h
  · exact ⟨a, b, rfl⟩
  · simp at h

/-- A bounded wall-clock reading formats to a well-shaped SQLite-style
timestamp. -/
theorem tsShape_formatTimestamp (t : DateTime) (hb : t.bounded) :
    sqliteTsShape (formatTimestamp t) = true := by
  obtain ⟨hy, hmo, hd, hh, hmi, hs⟩ := hb
  obtain ⟨y1, y2, y3, y4, hY⟩ :=
    list_eq_four (padZ_length 4 t.year (by norm_num) (by norm_num; omega))
  obtain ⟨m1, m2, hM⟩ := list_eq_two (padZ_length 2 t.month (by norm_num) (by norm_num; omega))
  obtain ⟨d1, d2, hD⟩ := list_eq_two (padZ_length 2 t.day (by norm_num) (by norm_num; omega))
  obtain ⟨hh1, hh2, hH⟩ := list_eq_two (padZ_length 2 t.hour (by norm_num) (by norm_num; omega))
  obtain ⟨mi1, mi2, hMi⟩ :=
    list_eq_two (padZ_length 2 t.minute (by norm_num) (by norm_num; omega))
  obtain ⟨s1, s2, hS⟩ := list_eq_two (padZ_length 2 t.second (by norm_num) (by norm_num; omega))
  have dy1 : y1.isDigit = true := padZ_digits 4 t.year y1 (by rw [hY]; simp)
  have dy2 : y2.isDigit = true := padZ_digits 4 t.year y2 (by rw [hY]; simp)
  have dy3 : y3.isDigit = true := padZ_digits 4 t.year y3 (by rw [hY]; simp)
  have dy4 : y4.isDigit = true := padZ_digits 4 t.year y4 (by rw [hY]; simp)
  have dm1 : m1.isDigit = true := padZ_digits 2 t.month m1 (by rw [hM]; simp)
  have dm2 : m2.isDigit = true := padZ_digits 2 t.month m2 (by rw [hM]; simp)
  have dd1 : d1.isDigit = true := padZ_digits 2 t.day d1 (by rw [hD]; simp)
  have dd2 : d2.isDigit = true := padZ_digits 2 t.day d2 (by rw [hD]; simp)
  have dh1 : hh1.isDigit = true := padZ_digits 2 t.hour hh1 (by rw [hH]; simp)
  have dh2 : hh2.isDigit = true := padZ_digits 2 t.hour hh2 (by rw [hH]; simp)
  have di1 : mi1.isDigit = true := padZ_digits 2 t.minute mi1 (by rw [hMi]; simp)
  have di2 : mi2.isDigit = true := padZ_digits 2 t.minute mi2 (by rw [hMi]; simp)
  have ds1 : s1.isDigit = true := padZ_digits 2 t.second s1 (by rw [hS]; simp)
  have ds2 : s2.isDigit = true := padZ_digits 2 t.second s2 (by rw [hS]; simp)
  unfold sqliteTsShape
  rw [formatTimestamp_toList, hY, hM, hD, hH, hMi, hS]
  simp [dy1, dy2, dy3, dy4, dm1, dm2, dd1, dd2, dh1, dh2, di1, di2, ds1, ds2]

/-- A newline never occurs in a formatted timestamp. -/
theorem nl_not_mem_formatTimestamp (t : DateTime) :
    '\n' ∉ (formatTimestamp t).toList := by
  intro h
  rw [formatTimestamp_toList] at h
  simp only [List.mem_append, List.mem_cons] at h
  rcases h with h | h | h | h | h | h | h | h | h | h | h
  · exact absurd (padZ_digits 4 t.year '\n' h) (by decide)
  · exact absurd h (by decide)
  · exact absurd (padZ_digits 2 t.month '\n' h) (by decide)
  · exact absurd h (by decide)
  · exact absurd (padZ_digits 2 t.day '\n' h) (by decide)
  · exact absurd h (by decide)
  · exact absurd (padZ_digits 2 t.hour '\n' h) (by decide)
  · exact absurd h (by decide)
  · exact absurd (padZ_digits 2 t.minute '\n' h) (by decide)
  · exact absurd h (by decide)
  · exact absurd (padZ_digits 2 t.second '\n' h) (by decide)

/-- A newline never occurs in a logged line whose description has none. -/
theorem nl_not_mem_logLine (t : DateTime) (E : String) (hE : '\n' ∉ E.toList) :
    '\n' ∉ logLine t E := by
  intro h
  simp only [logLine, List.mem_cons, List.mem_append] at h
  rcases h with h | h | h | h | h
  · exact absurd h (by decide)
  · exact nl_not_mem_formatTimestamp t h
  · exact absurd h (by decide)
  · exact absurd h (by decide)
  · exact hE h

/-- Unfolding step of `splitNlAux` on a cons. -/
theorem splitNlAux_cons (c : Char) (cs acc : List Char) :
    splitNlAux (c :: cs) acc =
      if c = '\n' then acc.reverse :: splitNlAux cs [] else splitNlAux cs (c :: acc) := rfl

/-- Splitting a newline-free list yields the one accumulated line. -/
theorem splitNlAux_no_newline (l : List Char) (h : '\n' ∉ l) :
    ∀ acc, splitNlAux l acc = [acc.reverse ++ l] := by
  induction l with
  | nil => intro acc; simp [splitNlAux]
  | cons c cs ih =>
    intro acc
    have hc : c ≠ '\n' := fun he => h (he ▸ List.mem_cons_self c cs)
    rw [splitNlAux_cons, if_neg hc]
    rw [ih (fun hm => h (List.mem_cons_of_mem c hm)) (c :: acc)]
    simp

/-- Splitting past a newline-free line and its separator emits that line
and continues on the rest. -/
theorem splitNlAux_break (l : List Char) (h : '\n' ∉ l) (rest : List Char) :
    ∀ acc, splitNlAux (l ++ '\n' :: rest) acc =
      (acc.reverse ++ l) :: splitNlAux rest [] := by
  induction l with
  | nil =>
    intro acc
    simp only [List.nil_append]
    rw [splitNlAux_cons, if_pos rfl]
    simp
  | cons c cs ih =>
    intro acc
    have hc : c ≠ '\n' := fun he => h (he ▸ List.mem_cons_self c cs)
    show splitNlAux (c :: (cs ++ '\n' :: rest)) acc = _
    rw [splitNlAux_cons, if_neg hc]
    rw [ih (fun hm => h (List.mem_cons_of_mem c hm)) (c :: acc)]
    simp

/-- Stripping a blob that starts with `[`, ends with one newline, and
whose last content character is not whitespace removes exactly that
final newline. -/
theorem pyStrip_wrap (tail : List Char) (c : Char) (r : List Char)
    (hrev : ('[' :: tail).reverse = c :: r) (hc : isPySpace c = false) :
    pyStrip (('[' :: tail) ++ ['\n']) = '[' :: tail := by
  have h1 : List.dropWhile isPySpace (('[' :: tail) ++ ['\n']) = ('[' :: tail) ++ ['\n'] := by
    rw [List.cons_append, List.dropWhile_cons]
    simp [isPySpace]
  have h2 : (('[' :: tail) ++ ['\n']).reverse = '\n' :: ('[' :: tail).reverse := by
    simp
  have h3 : List.dropWhile isPySpace ('\n' :: ('[' :: tail).reverse) =
      List.dropWhile isPySpace (('[' :: tail).reverse) := by
    rw [List.dropWhile_cons]
    simp [isPySpace]
  have h4 : List.dropWhile isPySpace (('[' :: tail).reverse) = ('[' :: tail).reverse := by
    rw [hrev, List.dropWhile_cons, hc]
    simp
  unfold pyStrip
  rw [h1, h2, h3, h4, List.reverse_reverse]

/-- The character list of one appended journal entry. -/
theorem entry_toList (t : DateTime) (E : String) :
    ("[" ++ formatTimestamp t ++ "] " ++ E ++ "\n").toList = logLine t E ++ ['\n'] := by
  simp [toList_append, logLine, List.append_assoc,
    show "[".toList = ['['] from rfl, show "] ".toList = [']', ' '] from rfl,
    show "\n".toList = ['\n'] from rfl]

/-- Claim C7: writing `E1`, `E2`, `E3` to an empty or absent journal and
then reading returns one block whose trimmed content is exactly the
three entries in write order; splitting it at newlines yields one line
per entry, each the bracketed timestamp followed by the description, and
each bracketed timestamp is well-formed (`[YYYY-MM-DD HH:MM:SS]`). -/
theorem C7_journal_round_trip (E1 E2 E3 : String) (t1 t2 t3 : DateTime) (j0 : Journal)
    (hj0 : j0.getD [] = [])
    (h1 : E1 ≠ "") (h2 : E2 ≠ "") (h3 : E3 ≠ "")
    (n1 : '\n' ∉ E1.toList) (n2 : '\n' ∉ E2.toList) (n3 : '\n' ∉ E3.toList)
    (hlast : isPySpace (E3.toList.getLastD '.') = false)
    (b1 : t1.bounded) (b2 : t2.bounded) (b3 : t3.bounded) :
    getWorkLogExecute
        (logWorkExecute { description := some E3 } t3
          (logWorkExecute { description := some E2 } t2
            (logWorkExecute { description := some E1 } t1 j0).2).2).2 =
      [textBlock (String.mk
        (logLine t1 E1 ++ '\n' :: (logLine t2 E2 ++ '\n' :: logLine t3 E3)))] ∧
    splitNl (logLine t1 E1 ++ '\n' :: (logLine t2 E2 ++ '\n' :: logLine t3 E3)) =
      [logLine t1 E1, logLine t2 E2, logLine t3 E3] ∧
    sqliteTsShape (formatTimestamp t1) = true ∧
    sqliteTsShape (formatTimestamp t2) = true ∧
    sqliteTsShape (formatTimestamp t3) = true := by
  have hE3ne : E3.toList ≠ [] := by
    intro he
    apply h3
    have hmk : E3 = String.mk E3.toList := rfl
    rw [hmk, he]
  rcases hr : E3.toList.reverse with _ | ⟨c, r⟩
  · exact absurd (by simpa using congrArg List.reverse hr) hE3ne
  have hcE3 : isPySpace c = false := by
    have hhead : E3.toList.reverse.head? = some c := by rw [hr]; rfl
    rw [List.head?_reverse] at hhead
    have : E3.toList.getLastD '.' = c := by
      rw [List.getLastD_eq_getLast?, hhead]
      rfl
    rw [← this]
    exact hlast
  -- the journal contents after the three writes
  have hw1 : (logWorkExecute { description := some E1 } t1 j0).2 =
      some (("[" ++ formatTimestamp t1 ++ "] " ++ E1 ++ "\n").toList) := by
    simp [logWorkExecute, h1, hj0]
  have hw2 : (logWorkExecute { description := some E2 } t2
      (some (("[" ++ formatTimestamp t1 ++ "] " ++ E1 ++ "\n").toList))).2 =
      some (("[" ++ formatTimestamp t1 ++ "] " ++ E1 ++ "\n").toList ++
        ("[" ++ formatTimestamp t2 ++ "] " ++ E2 ++ "\n").toList) := by
    simp [logWorkExecute, h2]
  have hw3 : (logWorkExecute { description := some E3 } t3
      (some (("[" ++ formatTimestamp t1 ++ "] " ++ E1 ++ "\n").toList ++
        ("[" ++ formatTimestamp t2 ++ "] " ++ E2 ++ "\n").toList))).2 =
      some ((("[" ++ formatTimestamp t1 ++ "] " ++ E1 ++ "\n").toList ++
        ("[" ++ formatTimestamp t2 ++ "] " ++ E2 ++ "\n").toList) ++
        ("[" ++ formatTimestamp t3 ++ "] " ++ E3 ++ "\n").toList) := by
    simp [logWorkExecute, h3]
  have hcontent : (("[" ++ formatTimestamp t1 ++ "] " ++ E1 ++ "\n").toList ++
        ("[" ++ formatTimestamp t2 ++ "] " ++ E2 ++ "\n").toList) ++
        ("[" ++ formatTimestamp t3 ++ "] " ++ E3 ++ "\n").toList =
      (logLine t1 E1 ++ '\n' :: (logLine t2 E2 ++ '\n' :: logLine t3 E3)) ++ ['\n'] := by
    rw [entry_toList, entry_toList, entry_toList]
    simp [List.append_assoc]
  -- the stripped body
  have hbody : logLine t1 E1 ++ '\n' :: (logLine t2 E2 ++ '\n' :: logLine t3 E3) =
      '[' :: ((formatTimestamp t1).toList ++ ']' :: ' ' :: E1.toList ++
        '\n' :: (logLine t2 E2 ++ '\n' :: logLine t3 E3)) := by
    simp [logLine, List.append_assoc]
  have hrevbody : ('[' :: ((formatTimestamp t1).toList ++ ']' :: ' ' :: E1.toList ++
      '\n' :: (logLine t2 E2 ++ '\n' :: logLine t3 E3))).reverse =
      c :: (r ++ ('[' :: ((formatTimestamp t1).toList ++ ']' :: ' ' :: E1.toList ++
        '\n' :: (logLine t2 E2 ++ '\n' :: ('[' :: ((formatTimestamp t3).toList ++
          [']', ' ']))))).reverse) := by
    have hsplit : '[' :: ((formatTimestamp t1).toList ++ ']' :: ' ' :: E1.toList ++
        '\n' :: (logLine t2 E2 ++ '\n' :: logLine t3 E3)) =
        ('[' :: ((formatTimestamp t1).toList ++ ']' :: ' ' :: E1.toList ++
          '\n' :: (logLine t2 E2 ++ '\n' :: ('[' :: ((formatTimestamp t3).toList ++
            [']', ' ']))))) ++ E3.toList := by
      simp [logLine, List.append_assoc]
    rw [hsplit, List.reverse_append, hr]
    simp
  have hstrip : pyStrip ((logLine t1 E1 ++ '\n' :: (logLine t2 E2 ++ '\n' :: logLine t3 E3))
      ++ ['\n']) = logLine t1 E1 ++ '\n' :: (logLine t2 E2 ++ '\n' :: logLine t3 E3) := by
    rw [hbody]
    exact pyStrip_wrap _ c _ hrevbody hcE3
  refine ⟨?_, ?_, tsShape_formatTimestamp t1 b1, tsShape_formatTimestamp t2 b2,
    tsShape_formatTimestamp t3 b3⟩
  · rw [hw1, hw2, hw3, hcontent]
    simp only [getWorkLogExecute]
    rw [hstrip]
    rw [hbody]
    simp
  · unfold splitNl
    rw [splitNlAux_break (logLine t1 E1) (nl_not_mem_logLine t1 E1 n1) _ []]
    rw [splitNlAux_break (logLine t2 E2) (nl_not_mem_logLine t2 E2 n2) _ []]
    rw [splitNlAux_no_newline (logLine t3 E3) (nl_not_mem_logLine t3 E3 n3) []]
    simp

/-- Witness for C7: three concrete entries written at three concrete
times to the absent journal. -/
theorem C7_journal_round_trip_witness :
    getWorkLogExecute
        (logWorkExecute { description := some "gamma" } ⟨2026, 1, 2, 3, 6, 7⟩
          (logWorkExecute { description := some "beta" } ⟨2026, 1, 2, 3, 5, 6⟩
            (logWorkExecute { description := some "alpha" } ⟨2026, 1, 2, 3, 4, 5⟩ none).2).2).2 =
      [textBlock (String.mk
        (logLine ⟨2026, 1, 2, 3, 4, 5⟩ "alpha" ++ '\n' ::
          (logLine ⟨2026, 1, 2, 3, 5, 6⟩ "beta" ++ '\n' ::
            logLine ⟨2026, 1, 2, 3, 6, 7⟩ "gamma")))] ∧
    splitNl (logLine ⟨2026, 1, 2, 3, 4, 5⟩ "alpha" ++ '\n' ::
        (logLine ⟨2026, 1, 2, 3, 5, 6⟩ "beta" ++ '\n' ::
          logLine ⟨2026, 1, 2, 3, 6, 7⟩ "gamma")) =
      [logLine ⟨2026, 1, 2, 3, 4, 5⟩ "alpha", logLine ⟨2026, 1, 2, 3, 5, 6⟩ "beta",
        logLine ⟨2026, 1, 2, 3, 6, 7⟩ "gamma"] ∧
    sqliteTsShape (formatTimestamp ⟨2026, 1, 2, 3, 4, 5⟩) = true ∧
    sqliteTsShape (formatTimestamp ⟨2026, 1, 2, 3, 5, 6⟩) = true ∧
    sqliteTsShape (formatTimestamp ⟨2026, 1, 2, 3, 6, 7⟩) = true :=
  C7_journal_round_trip "alpha" "beta" "gamma"
    ⟨2026, 1, 2, 3, 4, 5⟩ ⟨2026, 1, 2, 3, 5, 6⟩ ⟨2026, 1, 2, 3, 6, 7⟩ none
    rfl (by decide) (by decide) (by decide) (by decide) (by decide) (by decide)
    (by decide)
    ⟨by decide, by decide, by decide, by decide, by decide, by decide⟩
    ⟨by decide, by decide, by decide, by decide, by decide, by decide⟩
    ⟨by decide, by decide, by decide, by decide, by decide, by decide⟩

end Spec2Proof
